import Mathlib

set_option maxHeartbeats 1000000

/-!
Shallow embedding of the export core of the segments-ai repository
(`src/segments/export.py` and `src/segments/utils.py`).

Python integers are modelled as `Int` (or `Nat` for values the source keeps
as unsigned raster values), Python floats as exact rationals `ℚ`, numpy
arrays as nested lists, Python `dict`s as association lists, sets as
`Finset`, and fallible code as `Except String`.  The random source consumed
by `IdGenerator.get_color` is modelled as an explicit stream of channel
offsets, so the unbounded retry loop becomes a recursion over that stream
returning `Option`.
-/

/-- An RGB triple as used throughout `export.py` (Python ints). -/
abbrev RGB := Int × Int × Int

/-- Scalar branch of `rgb2id` (`export.py` line 143):
`int(color[0] + 256 * color[1] + 256 * 256 * color[2])`. -/
def rgb2id_scalar (color : RGB) : Int :=
  color.1 + 256 * color.2.1 + 256 * 256 * color.2.2

/-- Numpy dtypes that can reach the 3-D branch of `rgb2id`. -/
inductive ColorDType
  | uint8
  | int32
deriving DecidableEq

/-- Wrap-around of numpy `int32` arithmetic. -/
def int32wrap (x : Int) : Int :=
  (x + 2 ^ 31) % 2 ^ 32 - 2 ^ 31

/-- Possible arguments of `rgb2id` (`export.py` lines 131-143): a plain RGB
tuple, a 2-D numpy array of shape N×3 (a list of rows, each a triple), or a
3-D numpy array of shape H×W×C (a list of rows of pixels, each pixel a list
of channel values) carrying its dtype. -/
inductive RgbInput
  | triple : Int → Int → Int → RgbInput
  | array2 : List RGB → RgbInput
  | array3 : ColorDType → List (List (List Int)) → RgbInput

/-- Possible results of `rgb2id`: a scalar id or a 2-D id array. -/
inductive RgbOutput
  | scalar : Int → RgbOutput
  | image : List (List Int) → RgbOutput
deriving DecidableEq

/-- One pixel of the 3-D branch of `rgb2id`:
`color[:, :, 0] + 256 * color[:, :, 1] + 256 * 256 * color[:, :, 2]`,
computed in `int32` (after `color.astype(np.int32)` when the dtype was
`uint8`); a pixel with fewer than 3 channels is an `IndexError`. -/
def rgb2id_pixel (channels : List Int) : Except String Int :=
  match channels.get? 0, channels.get? 1, channels.get? 2 with
  | some r, some g, some b => .ok (int32wrap (r + 256 * g + 256 * 256 * b))
  | _, _, _ => .error "IndexError"

/-- `rgb2id` (`export.py` lines 131-143).  The guard
`isinstance(color, np.ndarray) and len(color.shape) == 3` sends only 3-D
arrays to the array branch (upcasting `uint8` to `int32` first); every
other input, including a 2-D N×3 array, falls through to
`int(color[0] + 256 * color[1] + 256 * 256 * color[2])`.  On a 2-D array
`color[0]`, `color[1]`, `color[2]` are whole rows, so that line raises:
`IndexError` when the array has fewer than 3 rows, otherwise `TypeError`
from calling `int` on a size-3 array. -/
def rgb2id : RgbInput → Except String RgbOutput
  | .triple r g b => .ok (.scalar (rgb2id_scalar (r, g, b)))
  | .array2 rows =>
      if 3 ≤ rows.length then
        .error "TypeError: only size-1 arrays can be converted to Python scalars"
      else
        .error "IndexError: index out of bounds"
  | .array3 _ img => do
      let rows ← img.mapM (fun row => row.mapM rgb2id_pixel)
      return .image rows

/-- Scalar branch of `id2rgb` (`export.py` lines 162-166): three rounds of
`color.append(id_map % 256); id_map //= 256` (Python `%`/`//` on the positive
modulus 256, which agree with Lean’s `Int` `%` and `/`). -/
def id2rgb_scalar (id_map : Int) : RGB :=
  let c0 := id_map % 256
  let id1 := id_map / 256
  let c1 := id1 % 256
  let id2 := id1 / 256
  let c2 := id2 % 256
  (c0, c1, c2)

/-- Array branch of `id2rgb` (`export.py` lines 154-161): elementwise the
same little-endian base-256 decomposition, written into a fresh `uint8`
array with one extra trailing axis of size 3. -/
def id2rgb_array (id_map : List (List Int)) : List (List RGB) :=
  id_map.map (fun row => row.map id2rgb_scalar)

/-- `Category` (`export.py` lines 33-37): a pydantic model with fields
`id`, `name`, `color`, `isthing`. -/
structure Category where
  id : Int
  name : String
  color : RGB
  isthing : Bool
deriving DecidableEq, Repr

/-- The 36-entry module-level `COLORMAP` (`export.py` lines 40-77), RGBA. -/
def COLORMAP : List (Int × Int × Int × Int) :=
  [(0, 113, 188, 255), (216, 82, 24, 255), (236, 176, 31, 255),
   (125, 46, 141, 255), (118, 171, 47, 255), (76, 189, 237, 255),
   (161, 19, 46, 255), (255, 0, 0, 255), (255, 127, 0, 255),
   (190, 190, 0, 255), (0, 255, 0, 255), (0, 0, 255, 255),
   (170, 0, 255, 255), (84, 84, 0, 255), (84, 170, 0, 255),
   (84, 255, 0, 255), (170, 84, 0, 255), (170, 170, 0, 255),
   (170, 255, 0, 255), (255, 84, 0, 255), (255, 170, 0, 255),
   (255, 255, 0, 255), (0, 84, 127, 255), (0, 170, 127, 255),
   (0, 255, 127, 255), (84, 0, 127, 255), (84, 84, 127, 255),
   (84, 170, 127, 255), (84, 255, 127, 255), (170, 0, 127, 255),
   (170, 84, 127, 255), (170, 170, 127, 255), (170, 255, 127, 255),
   (255, 0, 127, 255), (255, 84, 127, 255), (255, 170, 127, 255)]

/-- Module-level `get_color` (`export.py` lines 169-171):
`id = id % len(COLORMAP); return COLORMAP[id][0:3]`. -/
def get_color (id : Int) : RGB :=
  let id := id % (COLORMAP.length : Int)
  let c := COLORMAP.getD id.toNat (0, 0, 0, 0)
  (c.1, c.2.1, c.2.2.1)

namespace IdGenerator

/-- `IdGenerator.__init__` (`export.py` lines 92-98): the `taken_colors`
set starts as `{(0, 0, 0)}` plus the color of every category with
`isthing == 0`.  The `categories` dict is modelled as an association list
from category id to `Category`. -/
def initTaken (categories : List (Int × Category)) : Finset RGB :=
  insert ((0, 0, 0) : RGB)
    ((categories.filter (fun c => c.2.isthing = false)).map (fun c => c.2.color)).toFinset

/-- Clamping of one channel in `random_color`:
`np.maximum(0, np.minimum(255, new_color))`. -/
def clamp255 (x : Int) : Int := max 0 (min 255 x)

/-- `random_color` (`export.py` lines 101-106) applied to one drawn offset
triple: add the offset (drawn from `[-max_dist, max_dist]` by the random
source, which we model as the explicit stream element) to the base color
and clamp each channel to `[0, 255]`. -/
def random_color (base : RGB) (off : Int × Int × Int) : RGB :=
  (clamp255 (base.1 + off.1), clamp255 (base.2.1 + off.2.1), clamp255 (base.2.2 + off.2.2))

/-- The `while True` retry loop of `get_color` (`export.py` lines 116-120),
recursing over the stream of random offsets: the first perturbed candidate
not in `taken_colors` is returned together with the unconsumed rest of the
stream; `none` models exhausting the modelled random stream. -/
def findFreeColor (taken : Finset RGB) (base : RGB) :
    List (Int × Int × Int) → Option (RGB × List (Int × Int × Int))
  | [] => none
  | off :: rest =>
      let c := random_color base off
      if c ∈ taken then findFreeColor taken base rest else some (c, rest)

/-- `IdGenerator.get_color` (`export.py` lines 100-120).  Looking up a
missing category id (Python `KeyError`) and exhausting the modelled random
stream both give `none`; otherwise the result is the returned color, the
updated `taken_colors` set and the remaining random stream. -/
def get_color (categories : List (Int × Category)) (taken : Finset RGB)
    (cat_id : Int) (rand : List (Int × Int × Int)) :
    Option (RGB × Finset RGB × List (Int × Int × Int)) :=
  match categories.lookup cat_id with
  | none => none
  | some category =>
      if category.isthing = false then
        some (category.color, taken, rand)
      else
        let base_color := category.color
        if base_color ∉ taken then
          some (base_color, insert base_color taken, rand)
        else
          match findFreeColor taken base_color rand with
          | none => none
          | some (c, rest) => some (c, insert c taken, rest)

/-- `IdGenerator.get_id_and_color` (`export.py` lines 126-128). -/
def get_id_and_color (categories : List (Int × Category)) (taken : Finset RGB)
    (cat_id : Int) (rand : List (Int × Int × Int)) :
    Option ((Int × RGB) × Finset RGB × List (Int × Int × Int)) :=
  match get_color categories taken cat_id rand with
  | none => none
  | some (c, taken', rand') => some ((rgb2id_scalar c, c), taken', rand')

/-- A sequence of `get_color` calls on one `IdGenerator` (the state shared
across one export run): threads `taken_colors` and the random stream
through the calls and collects the returned colors in order. -/
def run_get_color (categories : List (Int × Category)) :
    Finset RGB → List (Int × Int × Int) → List Int →
    Option (List RGB × Finset RGB × List (Int × Int × Int))
  | taken, rand, [] => some ([], taken, rand)
  | taken, rand, cat_id :: ids =>
      match get_color categories taken cat_id rand with
      | none => none
      | some (c, taken', rand') =>
          match run_get_color categories taken' rand' ids with
          | none => none
          | some (cs, takenF, randF) => some (c :: cs, takenF, randF)

end IdGenerator

/-- One instance annotation record, as the dicts consumed by the exporters:
`id` (the raster instance id, a `uint32` value), `category_id`, `type` and
`points` (the corner/vertex list, Python floats modelled as `ℚ`).  Each
consumer reads only the keys it needs. -/
structure Ann where
  id : Nat
  category_id : Int
  type : String
  points : List (ℚ × ℚ)
deriving DecidableEq, Repr

/-- `max([a["id"] for a in annotations], default=0)`
(`utils.py` line 80). -/
def maxAnnId (annotations : List Ann) : Nat :=
  (annotations.map (fun a => a.id)).foldr max 0

/-- The `instance2semantic` lookup table of `get_semantic_bitmap`
(`utils.py` lines 79-86): `[0] * (max(ids, default=0) + 1)`, then
`table[a.id] = a.category_id + id_increment` for every annotation in
order. -/
def instance2semantic (annotations : List Ann) (id_increment : Int) : List Int :=
  annotations.foldl (fun t a => t.set a.id (a.category_id + id_increment))
    (List.replicate (maxAnnId annotations + 1) 0)

/-- Elementwise application of the lookup table by numpy fancy indexing
(`utils.py` line 88): an index beyond the table is an `IndexError`. -/
def tableIndex (t : List Int) (v : Nat) : Except String Int :=
  match t.get? v with
  | some x => .ok x
  | none => .error "IndexError: index out of bounds"

/-- `get_semantic_bitmap` (`utils.py` lines 60-89): returns `None`
(modelled `.ok none`) when either argument is `None`; otherwise builds the
`instance2semantic` table and applies it elementwise to the instance
raster (raising `IndexError` when some raster value exceeds the table
size). -/
def get_semantic_bitmap (instance_bitmap : Option (List (List Nat)))
    (annotations : Option (List Ann)) (id_increment : Int) :
    Except String (Option (List (List Int))) :=
  match instance_bitmap, annotations with
  | none, _ => .ok none
  | _, none => .ok none
  | some bm, some anns => do
      let t := instance2semantic anns id_increment
      let rows ← bm.mapM (fun row => row.mapM (tableIndex t))
      return some rows

/-- The per-pixel semantic value described by the spec: the matching
annotation's `category_id + id_increment`, else 0 (spec-side definition,
to be compared with what `get_semantic_bitmap` computes). -/
def semanticSpecValue (annotations : List Ann) (id_increment : Int) (v : Nat) : Int :=
  match annotations.find? (fun a => a.id == v) with
  | some a => a.category_id + id_increment
  | none => 0

/-- The dtype of the array handed to `bitmap2file`. -/
inductive BitmapDType
  | uint32
  | uint8
  | other
deriving DecidableEq

/-- The little-endian `uint8` view of one `uint32` pixel
(`bitmap2[:, :, None].view(np.uint8)`, `utils.py` line 49). -/
def viewBytes (v : Nat) : List Nat :=
  [v % 256, v / 256 % 256, v / 65536 % 256, v / 16777216 % 256]

/-- `bitmap2file` (`utils.py` lines 25-57), up to PNG serialization (PNG
encoding of an 8-bit RGBA array is lossless, so the file content is
modelled by the 4-channel byte array itself): a dtype other than `uint32`
or `uint8` fails the assert, `uint8` input is first converted to `uint32`
(values unchanged), each pixel is reinterpreted as its 4 little-endian
bytes and the alpha byte is overwritten with 255
(`bitmap2[:, :, 3] = 255`); `is_segmentation_bitmap=False` hits
`assert False`. -/
def bitmap2file (bitmap : List (List Nat)) (dtype : BitmapDType)
    (is_segmentation_bitmap : Bool) : Except String (List (List (List Nat))) :=
  match dtype with
  | .other => .error "AssertionError"
  | _ =>
      if is_segmentation_bitmap then
        .ok (bitmap.map (fun row => row.map (fun v => (viewBytes v).set 3 255)))
      else
        .error "AssertionError"

/-- `extract_bitmap` inside `load_label_bitmap_from_url`
(`utils.py` lines 199-206): zero the alpha byte
(`bitmap[:, :, 3] = 0`) and reinterpret the 4 bytes of each pixel as one
little-endian `uint32`. -/
def extract_bitmap (img : List (List (List Nat))) : List (List Nat) :=
  img.map (fun row => row.map (fun px =>
    let px := px.set 3 0
    px.getD 0 0 + 256 * px.getD 1 0 + 65536 * px.getD 2 0 + 16777216 * px.getD 3 0))

/-- One pixel of `colorize` (`export.py` lines 174-191): background 0 stays
black, a nonzero value `v` gets `colormap[v - 1]` (an `IndexError` when out
of range) or, without a colormap, the built-in `COLORMAP` cycled by
`get_color (v - 1)`. -/
def colorizePixel (colormap : Option (List RGB)) (v : Nat) : Except String RGB :=
  if v = 0 then .ok (0, 0, 0)
  else
    match colormap with
    | some cm =>
        match cm.get? (v - 1) with
        | some c => .ok c
        | none => .error "IndexError: list index out of range"
    | none => .ok (get_color ((v : Int) - 1))

/-- `colorize` (`export.py` lines 174-191), elementwise: the per-unique-id
mask assignments paint every pixel with the color of its value. -/
def colorize (img : List (List Nat)) (colormap : Option (List RGB)) :
    Except String (List (List RGB)) :=
  img.mapM (fun row => row.mapM (colorizePixel colormap))

/-- Round-half-even of a rational, as Python float formatting rounds. -/
def roundHalfEven (q : ℚ) : Int :=
  let f := ⌊q⌋
  let r := q - (f : ℚ)
  if r < 1 / 2 then f
  else if 1 / 2 < r then f + 1
  else if Even f then f else f + 1

/-- The decimal digit character of `d`. -/
def digitChar (d : Nat) : Char := Char.ofNat (48 + d)

/-- The 6 decimal digits of a fractional part `n < 10^6`, most significant
first. -/
def frac6 (n : Nat) : String :=
  ⟨[digitChar (n / 100000 % 10), digitChar (n / 10000 % 10), digitChar (n / 1000 % 10),
    digitChar (n / 100 % 10), digitChar (n / 10 % 10), digitChar (n % 10)]⟩

/-- Python `"{:.6f}".format(q)` on an exact rational: round the value to 6
decimal places (half-even) and print sign, integer part, a dot and exactly
6 fractional digits. -/
def fmtFixed6 (q : ℚ) : String :=
  let n := roundHalfEven (q * 1000000)
  let sign := if n < 0 then "-" else ""
  let m := n.natAbs
  sign ++ toString (m / 1000000) ++ "." ++ frac6 (m % 1000000)

/-- The line written per bbox by `export_yolo` (`export.py` lines 653-673):
normalize the two corner points by the image width/height, take center,
width (`abs(x1 - x0)`) and height, and format
`"{} {:.6f} {:.6f} {:.6f} {:.6f}\n"`. -/
def yoloLine (category_id : Int) (p0 p1 : ℚ × ℚ) (image_width image_height : ℚ) : String :=
  let x0 := p0.1 / image_width
  let x1 := p1.1 / image_width
  let y0 := p0.2 / image_height
  let y1 := p1.2 / image_height
  let x_center := (x0 + x1) / 2
  let y_center := (y0 + y1) / 2
  let width := |x1 - x0|
  let height := |y1 - y0|
  toString category_id ++ " " ++ fmtFixed6 x_center ++ " " ++ fmtFixed6 y_center ++ " "
    ++ fmtFixed6 width ++ " " ++ fmtFixed6 height ++ "\n"

/-- The claim-side normalized center `(a/s + b/s) / 2` (spec formula, to be
compared with what `yoloLine` computes). -/
def specNormCenter (a b s : ℚ) : ℚ := (a / s + b / s) / 2

/-- The claim-side normalized extent `|b - a| / s` (spec formula, to be
compared with what `yoloLine` computes). -/
def specNormExtent (a b s : ℚ) : ℚ := |b - a| / s

/-- One dataset sample as consumed by the exporters: `name`, `file_name`,
the optional PIL image (only its `size = (width, height)` is read), the
segmentation bitmap raster and the optional annotation list. -/
structure Sample where
  name : String
  file_name : String
  image : Option (Nat × Nat)
  segmentation_bitmap : List (List Nat)
  annotations : Option (List Ann)
deriving DecidableEq, Repr

/-- The dataset-level fields the exporters read (`SegmentsDataset` is the
external collaborator; category records are modelled already parsed into
`Category`). -/
structure SegmentsDataset where
  samples : List Sample
  task_type : String
  categories : List Category
  labelset : String
deriving DecidableEq, Repr

/-- One entry of the `images` list of a COCO export
(`export.py` lines 251-266 and 415-426). -/
structure ImageEntry where
  id : Nat
  file_name : String
  height : Option Nat
  width : Option Nat
deriving DecidableEq, Repr

/-- All pixel coordinates `(row, col)` carrying label `v` in a raster. -/
def labelPixels (bm : List (List Nat)) (v : Nat) : List (Nat × Nat) :=
  (bm.enum.map (fun rc =>
    rc.2.enum.filterMap (fun ce => if ce.2 = v then some (rc.1, ce.1) else none))).flatten

/-- One region of `skimage.measure.regionprops` over a label raster: label
value, bbox `(min_row, min_col, max_row + 1, max_col + 1)` and pixel
count. -/
structure Region where
  label : Nat
  bbox : Nat × Nat × Nat × Nat
  area : Nat
deriving DecidableEq, Repr

/-- The `regions` dict `{region.label: region}` built from `regionprops`
(`export.py` lines 269-270 and 441-442), looked up at one label:
`regionprops` yields one region per distinct nonzero label value, with its
bounding box and pixel count. -/
def regionOf (bm : List (List Nat)) (v : Nat) : Option Region :=
  let px := labelPixels bm v
  if v = 0 then none
  else
    match px with
    | [] => none
    | _ =>
        let rows := px.map Prod.fst
        let cols := px.map Prod.snd
        some { label := v,
               bbox := (rows.min?.getD 0, cols.min?.getD 0,
                        rows.max?.getD 0 + 1, cols.max?.getD 0 + 1),
               area := px.length }

/-- `np.array(sample["segmentation_bitmap"], np.uint32) == instance["id"]`
(`export.py` lines 293-295). -/
def instanceMask (bm : List (List Nat)) (id : Nat) : List (List Bool) :=
  bm.map (fun row => row.map (fun v => v == id))

/-- Column-major (Fortran-order) flattening of a binary mask, as forced by
`np.array(..., order="F")` before `mask.encode`. -/
def fortranFlatten (m : List (List Bool)) : List Bool :=
  m.transpose.flatten

/-- Maximal-run splitter for the COCO RLE counts: `cur` is the value of the
current run, `n` its length so far. -/
def runsAux : List Bool → Bool → Nat → List Nat
  | [], _, n => [n]
  | b :: bs, cur, n => if b = cur then runsAux bs cur (n + 1) else n :: runsAux bs b 1

/-- The COCO RLE counts of a column-major bit sequence: alternating run
lengths starting with the background (`False`) run, which may be 0. -/
def rleCounts (bits : List Bool) : List Nat :=
  runsAux bits false 0

/-- The RLE value stored in a coco-instance annotation
(`export.py` lines 303-315): `size = [height, width]` plus the counts (the
ASCII compression of the counts is an injective serialization and is kept
as the run list itself). -/
structure RleMask where
  size : Nat × Nat
  counts : List Nat
deriving DecidableEq, Repr

/-- One entry of the `annotations` list of a coco-instance export
(`export.py` lines 275-344): `segmentation`, `area` and `iscrowd` are only
added on the segmentation-bitmap path, and `bbox` holds raster integers
there but raw float corner points on the bboxes path. -/
structure CocoAnn where
  id : Nat
  image_id : Nat
  category_id : Int
  bbox : List ℚ
  segmentation : Option RleMask
  area : Option Nat
  iscrowd : Option Nat
deriving DecidableEq, Repr

/-- The image entry appended for sample index `i` (`image_id = i + 1`):
PIL `size[1]` is the height and `size[0]` the width, both `None` when the
sample has no image. -/
def imageEntryOf (image_id : Nat) (s : Sample) : ImageEntry :=
  { id := image_id, file_name := s.file_name,
    height := s.image.map (fun wh => wh.2), width := s.image.map (fun wh => wh.1) }

/-- The inner annotation loop of `export_coco_instance`
(`export.py` lines 272-345), threading the global `annotation_id` counter:
on the segmentation-bitmap path an instance absent from `regions` (zero
labeled pixels) is skipped; on the bboxes path the two corner points are
unpacked (a `ValueError` otherwise); any other task type hits
`assert False`. -/
def cocoInstanceAnns (task_type : String) (bm : List (List Nat)) (image_id : Nat) :
    List Ann → Nat → Except String (List CocoAnn × Nat)
  | [], annotation_id => .ok ([], annotation_id)
  | inst :: rest, annotation_id =>
      if task_type = "segmentation-bitmap" ∨ task_type = "segmentation-bitmap-highres" then
        match regionOf bm inst.id with
        | none => cocoInstanceAnns task_type bm image_id rest annotation_id
        | some region => do
            let msk := instanceMask bm inst.id
            let rle : RleMask :=
              { size := (bm.length, (bm.headD []).length),
                counts := rleCounts (fortranFlatten msk) }
            let y0 := region.bbox.1
            let x0 := region.bbox.2.1
            let y1 := region.bbox.2.2.1
            let x1 := region.bbox.2.2.2
            let entry : CocoAnn :=
              { id := annotation_id, image_id := image_id, category_id := inst.category_id,
                bbox := [(x0 : ℚ), (y0 : ℚ), (x1 : ℚ) - (x0 : ℚ), (y1 : ℚ) - (y0 : ℚ)],
                segmentation := some rle, area := some region.area, iscrowd := some 0 }
            let (entries, aid) ← cocoInstanceAnns task_type bm image_id rest (annotation_id + 1)
            return (entry :: entries, aid)
      else if task_type = "bboxes" then
        match inst.points with
        | [p0, p1] => do
            let entry : CocoAnn :=
              { id := annotation_id, image_id := image_id, category_id := inst.category_id,
                bbox := [p0.1, p0.2, p1.1 - p0.1, p1.2 - p0.2],
                segmentation := none, area := none, iscrowd := none }
            let (entries, aid) ← cocoInstanceAnns task_type bm image_id rest (annotation_id + 1)
            return (entry :: entries, aid)
        | _ => .error "ValueError: cannot unpack points"
      else .error "AssertionError"

/-- The sample loop of `export_coco_instance` (`export.py` lines 244-345):
`i` is the 0-based sample index (`image_id = i + 1`), `annotation_id` the
1-based global annotation counter; a sample with `annotations = None` is
skipped by `continue`. -/
def cocoInstanceLoop (task_type : String) :
    List Sample → Nat → Nat → Except String (List ImageEntry × List CocoAnn)
  | [], _, _ => .ok ([], [])
  | s :: rest, i, annotation_id =>
      match s.annotations with
      | none => cocoInstanceLoop task_type rest (i + 1) annotation_id
      | some anns => do
          let image_id := i + 1
          let (entries, aid) ←
            cocoInstanceAnns task_type s.segmentation_bitmap image_id anns annotation_id
          let (images, annsRest) ← cocoInstanceLoop task_type rest (i + 1) aid
          return (imageEntryOf image_id s :: images, entries ++ annsRest)

/-- `export_coco_instance` (`export.py` lines 204-366), up to the JSON/file
plumbing: the `images` and `annotations` lists of the produced document
(`info` and `categories` are verbatim metadata). -/
def export_coco_instance (ds : SegmentsDataset) :
    Except String (List ImageEntry × List CocoAnn) :=
  cocoInstanceLoop ds.task_type ds.samples 0 1

/-- One entry of a panoptic annotation's `segments_info`
(`export.py` lines 471-479). -/
structure PanSeg where
  id : Int
  category_id : Int
  bbox : List ℚ
  area : Nat
  iscrowd : Nat
deriving DecidableEq, Repr

/-- One entry of the `annotations` list of a coco-panoptic export
(`export.py` lines 483-489). -/
structure PanAnn where
  segments_info : List PanSeg
  file_name : String
  image_id : Nat
deriving DecidableEq, Repr

/-- `os.path.basename`: the part after the last path separator. -/
def basename (s : String) : String :=
  (s.splitOn "/").getLastD s

/-- `os.path.splitext(...)[0]`: everything before the last dot. -/
def splitextRoot (s : String) : String :=
  let parts := s.splitOn "."
  if parts.length ≤ 1 then s else String.intercalate "." parts.dropLast

/-- `os.path.splitext(os.path.basename(name))[0]`
(`export.py` lines 481 and 570 and 644). -/
def stemOf (s : String) : String :=
  splitextRoot (basename s)

/-- `panoptic_label[instance_mask] = color` (`export.py` line 460):
paint every pixel whose raster value equals `id` with `color`. -/
def paintMask (label : List (List RGB)) (bm : List (List Nat)) (id : Nat) (color : RGB) :
    List (List RGB) :=
  List.zipWith (fun lrow brow => List.zipWith (fun c v => if v = id then color else c) lrow brow)
    label bm

/-- The inner annotation loop of `export_coco_panoptic`
(`export.py` lines 444-479): for every instance the color allocator is
consulted first (so a color is claimed even when the instance is then
skipped for having zero labeled pixels), then the instance is looked up in
`regions`, the panoptic label raster is painted and a `segments_info`
entry is appended.  An allocator failure (missing category id / exhausted
modelled random stream) is an error. -/
def panopticAnns (categories : List (Int × Category)) (bm : List (List Nat)) :
    List Ann → List (List RGB) → Finset RGB → List (Int × Int × Int) →
    Except String (List PanSeg × List (List RGB) × Finset RGB × List (Int × Int × Int))
  | [], label, taken, rand => .ok ([], label, taken, rand)
  | inst :: rest, label, taken, rand =>
      match IdGenerator.get_id_and_color categories taken inst.category_id rand with
      | none => .error "IdGenerator failure: missing category id or exhausted random stream"
      | some ((instance_id, color), taken', rand') =>
          match regionOf bm inst.id with
          | none => panopticAnns categories bm rest label taken' rand'
          | some region => do
              let label' := paintMask label bm inst.id color
              let y0 := region.bbox.1
              let x0 := region.bbox.2.1
              let y1 := region.bbox.2.2.1
              let x1 := region.bbox.2.2.2
              let seg : PanSeg :=
                { id := instance_id, category_id := inst.category_id,
                  bbox := [(x0 : ℚ), (y0 : ℚ), (x1 : ℚ) - (x0 : ℚ), (y1 : ℚ) - (y0 : ℚ)],
                  area := region.area, iscrowd := 0 }
              let (segs, labelF, takenF, randF) ←
                panopticAnns categories bm rest label' taken' rand'
              return (seg :: segs, labelF, takenF, randF)

/-- The sample loop of `export_coco_panoptic` (`export.py` lines 407-508):
skips samples with `annotations = None`, appends an image entry, runs the
annotation loop on a fresh all-black panoptic label of the raster's shape,
appends the panoptic annotation entry and records the written PNG
(`file_name`, raster).  The allocator state (`taken_colors` and the random
stream) is shared across the whole run. -/
def panopticLoop (categories : List (Int × Category)) (labelset : String) :
    List Sample → Nat → Finset RGB → List (Int × Int × Int) →
    Except String (List ImageEntry × List PanAnn × List (String × List (List RGB)) ×
      Finset RGB × List (Int × Int × Int))
  | [], _, taken, rand => .ok ([], [], [], taken, rand)
  | s :: rest, i, taken, rand =>
      match s.annotations with
      | none => panopticLoop categories labelset rest (i + 1) taken rand
      | some anns => do
          let image_id := i + 1
          let label0 := s.segmentation_bitmap.map (fun row => row.map (fun _ => ((0, 0, 0) : RGB)))
          let (segs, label, taken', rand') ←
            panopticAnns categories s.segmentation_bitmap anns label0 taken rand
          let lfn := stemOf s.name ++ "_label_" ++ labelset ++ "_coco-panoptic.png"
          let (images, panns, files, takenF, randF) ←
            panopticLoop categories labelset rest (i + 1) taken' rand'
          return (imageEntryOf image_id s :: images,
                  { segments_info := segs, file_name := lfn, image_id := image_id } :: panns,
                  (lfn, label) :: files, takenF, randF)

/-- `export_coco_panoptic` (`export.py` lines 369-539), up to the JSON/file
plumbing: builds the category dict, seeds the `IdGenerator` and runs the
sample loop; yields the `images` and `annotations` lists and the written
panoptic PNGs. -/
def export_coco_panoptic (ds : SegmentsDataset) (rand : List (Int × Int × Int)) :
    Except String (List ImageEntry × List PanAnn × List (String × List (List RGB))) :=
  let categories_dict := ds.categories.map (fun c => (c.id, c))
  match panopticLoop categories_dict ds.labelset ds.samples 0
      (IdGenerator.initTaken categories_dict) rand with
  | .error e => .error e
  | .ok (images, panns, files, _, _) => .ok (images, panns, files)

/-- The per-sample body of `export_image` (`export.py` lines 570-621),
returning the file names written for this sample (file contents, PNG
encodings of the computed rasters, are determined by the computations run
here; the raster computations are kept for their error behaviour):
`instance` saves the raw bitmap, `instance-color` colorizes the mod-256
(`np.uint8`) raster with the built-in palette, `semantic` derives the
semantic raster and `semantic-color` additionally colorizes its mod-256
wrap with the category colors; an unknown format writes nothing. -/
def exportImageSample (labelset : String) (export_format : String) (id_increment : Int)
    (categories : List Category) (s : Sample) (anns : List Ann) :
    Except String (List String) :=
  let file_name := stemOf s.name
  if export_format = "instance" then
    .ok [file_name ++ "_label_" ++ labelset ++ "_instance.png"]
  else if export_format = "instance-color" then do
    let _ ← colorize (s.segmentation_bitmap.map (fun row => row.map (fun v => v % 256))) none
    .ok [file_name ++ "_label_" ++ labelset ++ "_instance_colored.png"]
  else if export_format = "semantic" then do
    let _ ← get_semantic_bitmap (some s.segmentation_bitmap) (some anns) id_increment
    .ok [file_name ++ "_label_" ++ labelset ++ "_semantic.png"]
  else if export_format = "semantic-color" then do
    let sem ← get_semantic_bitmap (some s.segmentation_bitmap) (some anns) id_increment
    let semRows := (sem.getD []).map (fun row => row.map (fun v => (v % 256).toNat))
    let _ ← colorize semRows (some (categories.map (fun c => c.color)))
    .ok [file_name ++ "_label_" ++ labelset ++ "_semantic_colored.png"]
  else
    .ok []

/-- The sample loop of `export_image` (`export.py` lines 564-621): skips
samples with `annotations = None` and concatenates the files written for
the remaining samples. -/
def exportImageLoop (labelset : String) (export_format : String) (id_increment : Int)
    (categories : List Category) : List Sample → Except String (List String)
  | [] => .ok []
  | s :: rest =>
      match s.annotations with
      | none => exportImageLoop labelset export_format id_increment categories rest
      | some anns => do
          let files ← exportImageSample labelset export_format id_increment categories s anns
          let filesRest ← exportImageLoop labelset export_format id_increment categories rest
          return files ++ filesRest

/-- `export_image` (`export.py` lines 542-624), up to directory plumbing:
the list of label files written. -/
def export_image (ds : SegmentsDataset) (export_format : String) (id_increment : Int) :
    Except String (List String) :=
  exportImageLoop ds.labelset export_format id_increment ds.categories ds.samples

/-- The annotation loop of one YOLO sample (`export.py` lines 652-673):
bbox annotations contribute one formatted line each, every other type is
skipped; the two corner points are unpacked (`ValueError` otherwise). -/
def yoloAnnLines (image_width image_height : ℚ) : List Ann → Except String String
  | [] => .ok ""
  | a :: rest =>
      if a.type = "bbox" then
        match a.points with
        | [p0, p1] => do
            let restLines ← yoloAnnLines image_width image_height rest
            return yoloLine a.category_id p0 p1 image_width image_height ++ restLines
        | _ => .error "ValueError: cannot unpack points"
      else yoloAnnLines image_width image_height rest

/-- The sample loop of `export_yolo` (`export.py` lines 636-673): a sample
is processed only when its annotation list is present, non-`None` and
non-empty; the sample's image must be present (its `width`/`height` are
read unconditionally, an `AttributeError` on `None`); one `.txt` file
(name, content) is written per processed sample. -/
def yoloLoop : List Sample → Except String (List (String × String))
  | [] => .ok []
  | s :: rest =>
      match s.annotations with
      | none => yoloLoop rest
      | some anns =>
          if 0 < anns.length then
            match s.image with
            | none => .error "AttributeError: NoneType object has no attribute width"
            | some wh => do
                let content ← yoloAnnLines (wh.1 : ℚ) (wh.2 : ℚ) anns
                let files ← yoloLoop rest
                return (stemOf s.name ++ ".txt", content) :: files
          else yoloLoop rest

/-- `export_yolo` (`export.py` lines 627-676): rejects task types other
than `vector`/`bboxes` with a `ValueError`, then runs the sample loop. -/
def export_yolo (ds : SegmentsDataset) : Except String (List (String × String)) :=
  if ds.task_type = "vector" ∨ ds.task_type = "bboxes" then yoloLoop ds.samples
  else .error "You can only export bounding box datasets to YOLO format."

/-- The value returned by `export_dataset`, one constructor per emitter
family (`noneOut` is the trailing `return None` for an unknown format). -/
inductive ExportOutput
  | cocoInst : List ImageEntry × List CocoAnn → ExportOutput
  | cocoPan : List ImageEntry × List PanAnn × List (String × List (List RGB)) → ExportOutput
  | imageFiles : List String → ExportOutput
  | yoloFiles : List (String × String) → ExportOutput
  | noneOut : ExportOutput

/-- Membership test `dataset.task_type in ["segmentation-bitmap",
"segmentation-bitmap-highres"]` (`utils.py` lines 121-124, 132-135,
151-154). -/
def isSegTaskType (task_type : String) : Bool :=
  task_type = "segmentation-bitmap" ∨ task_type = "segmentation-bitmap-highres"

/-- `export_dataset` (`utils.py` lines 92-161): dispatches on the export
format, first validating the dataset's task type and raising a
`ValueError` before any sample is touched when it is incompatible. -/
def export_dataset (ds : SegmentsDataset) (export_format : String) (id_increment : Int)
    (rand : List (Int × Int × Int)) : Except String ExportOutput :=
  if export_format = "coco-panoptic" then
    if isSegTaskType ds.task_type then (export_coco_panoptic ds rand).map .cocoPan
    else .error "Only datasets of type \"segmentation-bitmap\" and \"segmentation-bitmap-highres\" can be exported to this format."
  else if export_format = "coco-instance" then
    if isSegTaskType ds.task_type then (export_coco_instance ds).map .cocoInst
    else .error "Only datasets of type \"segmentation-bitmap\" and \"segmentation-bitmap-highres\" can be exported to this format."
  else if export_format = "yolo" then
    if ds.task_type = "vector" ∨ ds.task_type = "bboxes" then (export_yolo ds).map .yoloFiles
    else .error "Only datasets of type \"vector\" and \"bboxes\" can be exported to this format."
  else if export_format = "semantic-color" ∨ export_format = "instance-color" ∨
      export_format = "semantic" ∨ export_format = "instance" then
    if isSegTaskType ds.task_type then (export_image ds export_format id_increment).map .imageFiles
    else .error "Only datasets of type \"segmentation-bitmap\" and \"segmentation-bitmap-highres\" can be exported to this format."
  else .ok .noneOut

/-! Theorems. -/

/-- A `mapM` over `Except` whose steps all succeed is the `map` of the
pointwise results. -/
theorem mapM_ok_of_forall {α β : Type} (f : α → Except String β) (g : α → β) :
    ∀ l : List α, (∀ x ∈ l, f x = .ok (g x)) → l.mapM f = .ok (l.map g) := by
  intro l
  induction l with
  | nil => intro _; rfl
  | cons x xs ih =>
      intro h
      rw [List.mapM_cons, h x (by simp), ih (fun y hy => h y (by simp [hy]))]
      rfl

/-- Mapping a function that fixes every element of a list is the
identity. -/
theorem map_eq_self_of_forall {α : Type} (f : α → α) :
    ∀ l : List α, (∀ x ∈ l, f x = x) → l.map f = l := by
  intro l
  induction l with
  | nil => intro _; rfl
  | cons x xs ih =>
      intro h
      rw [List.map_cons, h x (by simp), ih (fun y hy => h y (by simp [hy]))]

/-- C1: for every integer id `x` in `[0, 2^24)`, converting the id to an
RGB triple with `id2rgb` (scalar branch) and converting that triple back
with `rgb2id` yields `x` again. -/
theorem C1_id_color_roundtrip (x : Int) (h0 : 0 ≤ x) (h1 : x < 2 ^ 24) :
    rgb2id (.triple (id2rgb_scalar x).1 (id2rgb_scalar x).2.1 (id2rgb_scalar x).2.2) =
      .ok (.scalar x) := by
  have h : x % 256 + 256 * (x / 256 % 256) + 256 * 256 * (x / 256 / 256 % 256) = x := by
    omega
  show Except.ok (RgbOutput.scalar
    (x % 256 + 256 * (x / 256 % 256) + 256 * 256 * (x / 256 / 256 % 256))) = _
  rw [h]

/-- Witness for C1 at the concrete id 123456. -/
theorem C1_id_color_roundtrip_witness :
    rgb2id (.triple (id2rgb_scalar 123456).1 (id2rgb_scalar 123456).2.1
      (id2rgb_scalar 123456).2.2) = .ok (.scalar 123456) :=
  C1_id_color_roundtrip 123456 (by norm_num) (by norm_num)

/-- C5 counterexample: `rgb2id` on the concrete 2-D 3×3 array of triples
`[(1,0,0),(2,0,0),(3,0,0)]` raises a `TypeError` (the guard only routes
3-D arrays to the array branch, so the scalar branch calls `int` on a
whole row combination) instead of returning the three ids `[1, 2, 3]`. -/
theorem C5_rgb2id_2d_counterexample :
    rgb2id (.array2 [(1, 0, 0), (2, 0, 0), (3, 0, 0)]) =
      .error "TypeError: only size-1 arrays can be converted to Python scalars" := by
  rfl

/-- C5 (amended): `rgb2id` accepts a single triple
(`id = r + 256 g + 65536 b`) or a 3-D array of triples (reducing the color
axis), upcasting `uint8` input to `int32` before multiplying so that no
result overflows; a 2-D array of triples is not reduced row-wise but
raises an error. -/
theorem C5_rgb2id_amended :
    (∀ r g b : Int, rgb2id (.triple r g b) = .ok (.scalar (r + 256 * g + 256 * 256 * b))) ∧
    (∀ img : List (List (List Int)),
      (∀ row ∈ img, ∀ px ∈ row, px.length = 3 ∧ ∀ c ∈ px, 0 ≤ c ∧ c < 256) →
      rgb2id (.array3 .uint8 img) =
        .ok (.image (img.map (fun row => row.map (fun px =>
          px.getD 0 0 + 256 * px.getD 1 0 + 256 * 256 * px.getD 2 0))))) ∧
    (∀ rows : List RGB, ∃ msg, rgb2id (.array2 rows) = .error msg) := by
  refine ⟨fun r g b => rfl, ?_, ?_⟩
  · intro img h
    have hrow : ∀ row ∈ img,
        row.mapM rgb2id_pixel =
          .ok (row.map (fun px =>
            px.getD 0 0 + 256 * px.getD 1 0 + 256 * 256 * px.getD 2 0)) := by
      intro row hr
      refine mapM_ok_of_forall _ _ row (fun px hpx => ?_)
      obtain ⟨hlen, hbnd⟩ := h row hr px hpx
      obtain ⟨r, g, b, rfl⟩ := List.length_eq_three.mp hlen
      have hr' := hbnd r (by simp)
      have hg' := hbnd g (by simp)
      have hb' := hbnd b (by simp)
      have hwrap : int32wrap (r + 256 * g + 256 * 256 * b) = r + 256 * g + 256 * 256 * b := by
        simp only [int32wrap]
        omega
      show Except.ok (int32wrap (r + 256 * g + 256 * 256 * b)) = _
      rw [hwrap]
      rfl
    show Except.bind (img.mapM (fun row => row.mapM rgb2id_pixel))
      (fun rows => Except.ok (RgbOutput.image rows)) = _
    rw [mapM_ok_of_forall _ _ img hrow]
    rfl
  · intro rows
    by_cases h3 : 3 ≤ rows.length
    · exact ⟨"TypeError: only size-1 arrays can be converted to Python scalars",
        by simp [rgb2id, h3]⟩
    · exact ⟨"IndexError: index out of bounds", by simp [rgb2id, h3]⟩

/-- Witness for the 3-D conjunct of C5 at a concrete 1×1 uint8 array. -/
theorem C5_rgb2id_amended_witness :
    rgb2id (.array3 .uint8 [[[10, 20, 30]]]) = .ok (.image [[1971210]]) := by
  rw [C5_rgb2id_amended.2.1 [[[10, 20, 30]]] (by decide)]
  rfl

/-- C4: packing a uint32 raster whose values are all below `2^24` with
`bitmap2file` yields the 4-channel byte image with every alpha byte forced
to 255, and decoding it as `load_label_bitmap_from_url` does (zero the
alpha byte, recombine the 4 bytes into one uint32) recovers the original
raster exactly. -/
theorem C4_bitmap_roundtrip (bm : List (List Nat))
    (h : ∀ row ∈ bm, ∀ v ∈ row, v < 2 ^ 24) :
    bitmap2file bm .uint32 true =
      .ok (bm.map (fun row => row.map (fun v => (viewBytes v).set 3 255))) ∧
    (∀ row ∈ bm.map (fun row => row.map (fun v => (viewBytes v).set 3 255)),
      ∀ px ∈ row, px.get? 3 = some 255) ∧
    extract_bitmap (bm.map (fun row => row.map (fun v => (viewBytes v).set 3 255))) = bm := by
  refine ⟨rfl, ?_, ?_⟩
  · intro row hrow px hpx
    obtain ⟨row0, _, rfl⟩ := List.mem_map.mp hrow
    obtain ⟨v, _, rfl⟩ := List.mem_map.mp hpx
    rfl
  · simp only [extract_bitmap, List.map_map]
    refine map_eq_self_of_forall _ bm (fun row hrow => ?_)
    simp only [Function.comp, List.map_map]
    refine map_eq_self_of_forall _ row (fun v hv => ?_)
    have hb := h row hrow v hv
    show v % 256 + 256 * (v / 256 % 256) + 65536 * (v / 65536 % 256) + 16777216 * 0 = v
    omega

/-- Witness for C4 at the concrete raster `[[0, 1], [16777215, 300]]`. -/
theorem C4_bitmap_roundtrip_witness :
    extract_bitmap ([[0, 1], [16777215, 300]].map (fun row =>
      row.map (fun v => (viewBytes v).set 3 255))) = [[0, 1], [16777215, 300]] :=
  (C4_bitmap_roundtrip [[0, 1], [16777215, 300]] (by decide)).2.2

/-- C9: an `IdGenerator.get_color` call for a category with
`isthing = false` returns the category's configured fixed color and leaves
`taken_colors` (and the random source) untouched, whatever the current
allocator state is — hence every repeated call, with any other allocations
in between, returns that same color. -/
theorem C9_stuff_fixed_color (categories : List (Int × Category)) (taken : Finset RGB)
    (cat_id : Int) (rand : List (Int × Int × Int)) (cat : Category)
    (hlook : categories.lookup cat_id = some cat) (hstuff : cat.isthing = false) :
    IdGenerator.get_color categories taken cat_id rand = some (cat.color, taken, rand) := by
  simp [IdGenerator.get_color, hlook, hstuff]

/-- Witness for C9: a concrete stuff category keeps color `(1,2,3)` with
the taken set unchanged. -/
theorem C9_stuff_fixed_color_witness :
    IdGenerator.get_color [(7, ⟨7, "sky", (1, 2, 3), false⟩)] {(0, 0, 0)} 7 [] =
      some ((1, 2, 3), {(0, 0, 0)}, []) :=
  C9_stuff_fixed_color [(7, ⟨7, "sky", (1, 2, 3), false⟩)] {(0, 0, 0)} 7 []
    ⟨7, "sky", (1, 2, 3), false⟩ (by decide) rfl

/-- C10: `get_semantic_bitmap` returns `None` (never raises and never
returns a raster) whenever its `instance_bitmap` argument is `None` or its
`annotations` argument is `None`, for every value of the other
arguments. -/
theorem C10_semantic_none :
    (∀ (anns : Option (List Ann)) (inc : Int), get_semantic_bitmap none anns inc = .ok none) ∧
    (∀ (bm : Option (List (List Nat))) (inc : Int), get_semantic_bitmap bm none inc = .ok none) := by
  constructor
  · intro anns inc
    cases anns <;> rfl
  · intro bm inc
    cases bm <;> rfl

/-- A color found by the retry loop was not yet taken. -/
theorem findFreeColor_not_mem (taken : Finset RGB) (base : RGB) :
    ∀ (rand : List (Int × Int × Int)) (res : RGB × List (Int × Int × Int)),
      IdGenerator.findFreeColor taken base rand = some res → res.1 ∉ taken := by
  intro rand
  induction rand with
  | nil => intro res h; exact absurd h (by simp [IdGenerator.findFreeColor])
  | cons off tl ih =>
      intro res h
      simp only [IdGenerator.findFreeColor] at h
      split at h
      · exact ih res h
      · rename_i hnot
        cases h
        exact hnot

/-- A successful `get_color` call on a thing category returns a color that
was not yet taken and inserts exactly that color into `taken_colors`. -/
theorem get_color_thing_step (categories : List (Int × Category)) (taken : Finset RGB)
    (cat_id : Int) (rand : List (Int × Int × Int)) (cat : Category)
    (c : RGB) (taken' : Finset RGB) (rand' : List (Int × Int × Int))
    (hlook : categories.lookup cat_id = some cat) (hthing : cat.isthing = true)
    (h : IdGenerator.get_color categories taken cat_id rand = some (c, taken', rand')) :
    c ∉ taken ∧ taken' = insert c taken := by
  simp only [IdGenerator.get_color, hlook, hthing] at h
  simp only [Bool.true_eq_false, if_false] at h
  split at h
  · rename_i hfree
    simp only [Option.some.injEq, Prod.mk.injEq] at h
    obtain ⟨e1, e2, _⟩ := h
    subst e1; subst e2
    exact ⟨hfree, rfl⟩
  · rename_i htaken
    cases hfind : IdGenerator.findFreeColor taken cat.color rand with
    | none => rw [hfind] at h; exact absurd h (by simp)
    | some res =>
        obtain ⟨c0, rest0⟩ := res
        rw [hfind] at h
        simp only [Option.some.injEq, Prod.mk.injEq] at h
        obtain ⟨e1, e2, _⟩ := h
        subst e1; subst e2
        exact ⟨findFreeColor_not_mem taken cat.color rand (c0, rest0) hfind, rfl⟩

/-- A successful run of `get_color` calls on thing categories yields
pairwise-distinct colors, none of them previously taken, with the taken
set only growing and finally containing every returned color. -/
theorem run_get_color_spec (categories : List (Int × Category)) :
    ∀ (ids : List Int) (taken : Finset RGB) (rand : List (Int × Int × Int))
      (cs : List RGB) (taken' : Finset RGB) (rand' : List (Int × Int × Int)),
      IdGenerator.run_get_color categories taken rand ids = some (cs, taken', rand') →
      (∀ i ∈ ids, ∀ cat, categories.lookup i = some cat → cat.isthing = true) →
      cs.Nodup ∧ (∀ c ∈ cs, c ∉ taken) ∧ taken ⊆ taken' ∧ (∀ c ∈ cs, c ∈ taken') := by
  intro ids
  induction ids with
  | nil =>
      intro taken rand cs taken' rand' h _
      simp only [IdGenerator.run_get_color, Option.some.injEq, Prod.mk.injEq] at h
      obtain ⟨h1, h2, _⟩ := h
      subst h1; subst h2
      exact ⟨List.nodup_nil, by simp, Finset.Subset.refl _, by simp⟩
  | cons i tl ih =>
      intro taken rand cs taken' rand' h hthing
      rw [IdGenerator.run_get_color] at h
      cases hg : IdGenerator.get_color categories taken i rand with
      | none => rw [hg] at h; exact absurd h (by simp)
      | some res =>
          obtain ⟨c0, taken1, rand1⟩ := res
          rw [hg] at h
          dsimp only at h
          cases hr : IdGenerator.run_get_color categories taken1 rand1 tl with
          | none => rw [hr] at h; exact absurd h (by simp)
          | some res2 =>
              obtain ⟨cs2, takenF, randF⟩ := res2
              rw [hr] at h
              simp only [Option.some.injEq, Prod.mk.injEq] at h
              obtain ⟨h1, h2, h3⟩ := h
              subst h1; subst h2; subst h3
              have hlookup : ∃ cat, categories.lookup i = some cat := by
                cases hl : categories.lookup i with
                | none => rw [IdGenerator.get_color, hl] at hg; exact absurd hg (by simp)
                | some cat => exact ⟨cat, rfl⟩
              obtain ⟨cat, hl⟩ := hlookup
              have hth := hthing i (by simp) cat hl
              obtain ⟨hc0, ht1⟩ :=
                get_color_thing_step categories taken i rand cat c0 taken1 rand1 hl hth hg
              obtain ⟨hnd2, hnotin2, hsub2, hin2⟩ :=
                ih taken1 rand1 cs2 takenF randF hr
                  (fun j hj cat' hl' => hthing j (by simp [hj]) cat' hl')
              subst ht1
              refine ⟨?_, ?_, ?_, ?_⟩
              · refine List.nodup_cons.mpr ⟨fun hmem => ?_, hnd2⟩
                exact hnotin2 c0 hmem (Finset.mem_insert_self c0 taken)
              · intro c hc
                rcases List.mem_cons.mp hc with rfl | hc2
                · exact hc0
                · intro hct
                  exact hnotin2 c hc2 (Finset.mem_insert_of_mem hct)
              · exact (Finset.subset_insert c0 taken).trans hsub2
              · intro c hc
                rcases List.mem_cons.mp hc with rfl | hc2
                · exact hsub2 (Finset.mem_insert_self c taken)
                · exact hin2 c hc2

/-- A successful run over `l₁ ++ l₂` factors through the intermediate
state after `l₁`. -/
theorem run_get_color_append (categories : List (Int × Category)) :
    ∀ (l₁ l₂ : List Int) (taken : Finset RGB) (rand : List (Int × Int × Int))
      (cs : List RGB) (taken' : Finset RGB) (rand' : List (Int × Int × Int)),
      IdGenerator.run_get_color categories taken rand (l₁ ++ l₂) = some (cs, taken', rand') →
      ∃ cs₁ t₁ r₁ cs₂,
        IdGenerator.run_get_color categories taken rand l₁ = some (cs₁, t₁, r₁) ∧
        IdGenerator.run_get_color categories t₁ r₁ l₂ = some (cs₂, taken', rand') ∧
        cs = cs₁ ++ cs₂ := by
  intro l₁
  induction l₁ with
  | nil =>
      intro l₂ taken rand cs taken' rand' h
      exact ⟨[], taken, rand, cs, rfl, h, rfl⟩
  | cons i tl ih =>
      intro l₂ taken rand cs taken' rand' h
      rw [List.cons_append, IdGenerator.run_get_color] at h
      cases hg : IdGenerator.get_color categories taken i rand with
      | none => rw [hg] at h; exact absurd h (by simp)
      | some res =>
          obtain ⟨c0, t1, r1⟩ := res
          rw [hg] at h
          dsimp only at h
          cases hr : IdGenerator.run_get_color categories t1 r1 (tl ++ l₂) with
          | none => rw [hr] at h; exact absurd h (by simp)
          | some res2 =>
              obtain ⟨cs2, tF, rF⟩ := res2
              rw [hr] at h
              simp only [Option.some.injEq, Prod.mk.injEq] at h
              obtain ⟨h1, h2, h3⟩ := h
              subst h1; subst h2; subst h3
              obtain ⟨cs₁, t₁, r₁, cs₂, ha, hb, hc⟩ := ih l₂ t1 r1 cs2 tF rF hr
              refine ⟨c0 :: cs₁, t₁, r₁, cs₂, ?_, hb, by simp [hc]⟩
              rw [IdGenerator.run_get_color, hg]
              dsimp only
              rw [ha]

/-- C2: for every `IdGenerator` seeded from a fixed category map and every
successful finite sequence of `get_color` calls on thing categories within
one run, the returned colors are pairwise distinct, none is `(0,0,0)`,
none equals the fixed color of any stuff (`isthing = false`) category, and
`taken_colors` grows monotonically: the seed set survives to the end and
the set reached after any prefix of the calls is contained in the final
set. -/
theorem C2_allocator_invariants (categories : List (Int × Category))
    (ids : List Int) (rand : List (Int × Int × Int))
    (cs : List RGB) (takenF : Finset RGB) (randF : List (Int × Int × Int))
    (hrun : IdGenerator.run_get_color categories (IdGenerator.initTaken categories) rand ids =
      some (cs, takenF, randF))
    (hthing : ∀ i ∈ ids, ∀ cat, categories.lookup i = some cat → cat.isthing = true) :
    cs.Nodup ∧
    ((0, 0, 0) : RGB) ∉ cs ∧
    (∀ p ∈ categories, p.2.isthing = false → p.2.color ∉ cs) ∧
    IdGenerator.initTaken categories ⊆ takenF ∧
    (∀ l₁ l₂, ids = l₁ ++ l₂ → ∀ cs₁ t₁ r₁,
      IdGenerator.run_get_color categories (IdGenerator.initTaken categories) rand l₁ =
        some (cs₁, t₁, r₁) → t₁ ⊆ takenF) := by
  obtain ⟨hnd, hnotin, hsub, hin⟩ :=
    run_get_color_spec categories ids _ rand cs takenF randF hrun hthing
  refine ⟨hnd, ?_, ?_, hsub, ?_⟩
  · intro hmem
    exact hnotin _ hmem (by simp [IdGenerator.initTaken])
  · intro p hp hstuff hmem
    refine hnotin _ hmem ?_
    simp only [IdGenerator.initTaken, Finset.mem_insert, List.mem_toFinset, List.mem_map]
    exact Or.inr ⟨p, List.mem_filter.mpr ⟨hp, by simp [hstuff]⟩, rfl⟩
  · intro l₁ l₂ hsplit cs₁ t₁ r₁ h1
    subst hsplit
    obtain ⟨cs₁', t₁', r₁', cs₂, h1', h2', _⟩ :=
      run_get_color_append categories l₁ l₂ _ rand cs takenF randF hrun
    rw [h1] at h1'
    simp only [Option.some.injEq, Prod.mk.injEq] at h1'
    obtain ⟨_, e2, e3⟩ := h1'
    subst e2; subst e3
    obtain ⟨_, _, _, hin2⟩ :=
      run_get_color_spec categories l₂ t₁ r₁ cs₂ takenF randF h2'
        (fun j hj cat' hl' => hthing j (by simp [hj]) cat' hl')
    assumption

/-- Witness for C2: one thing category with base color `(10, 20, 30)` and
one call. -/
theorem C2_allocator_invariants_witness :
    ([((10 : Int), (20 : Int), (30 : Int))] : List RGB).Nodup ∧
    ((0, 0, 0) : RGB) ∉ ([(10, 20, 30)] : List RGB) ∧
    (∀ p ∈ [((1 : Int), Category.mk 1 "car" (10, 20, 30) true)],
      p.2.isthing = false → p.2.color ∉ ([(10, 20, 30)] : List RGB)) ∧
    IdGenerator.initTaken [(1, Category.mk 1 "car" (10, 20, 30) true)] ⊆
      insert ((10, 20, 30) : RGB)
        (IdGenerator.initTaken [(1, Category.mk 1 "car" (10, 20, 30) true)]) ∧
    (∀ l₁ l₂, [(1 : Int)] = l₁ ++ l₂ → ∀ cs₁ t₁ r₁,
      IdGenerator.run_get_color [(1, Category.mk 1 "car" (10, 20, 30) true)]
        (IdGenerator.initTaken [(1, Category.mk 1 "car" (10, 20, 30) true)]) [] l₁ =
          some (cs₁, t₁, r₁) →
      t₁ ⊆ insert ((10, 20, 30) : RGB)
        (IdGenerator.initTaken [(1, Category.mk 1 "car" (10, 20, 30) true)])) :=
  C2_allocator_invariants [(1, Category.mk 1 "car" (10, 20, 30) true)] [1] []
    [(10, 20, 30)]
    (insert (10, 20, 30) (IdGenerator.initTaken [(1, Category.mk 1 "car" (10, 20, 30) true)]))
    []
    (by decide)
    (by
      intro i hi cat hcat
      simp only [List.mem_singleton] at hi
      subst hi
      simp only [List.lookup] at hcat
      norm_num at hcat
      rw [← hcat])

/-- Every annotation id is bounded by `maxAnnId`. -/
theorem le_maxAnnId (anns : List Ann) : ∀ a ∈ anns, a.id ≤ maxAnnId anns := by
  induction anns with
  | nil => intro a ha; exact absurd ha (by simp)
  | cons b tl ih =>
      intro a ha
      rcases List.mem_cons.mp ha with rfl | h2
      · simp only [maxAnnId, List.map_cons, List.foldr_cons]
        exact le_max_left _ _
      · refine le_trans (ih a h2) ?_
        simp only [maxAnnId, List.map_cons, List.foldr_cons]
        exact le_max_right _ _

/-- Filling the `instance2semantic` table does not change its length. -/
theorem foldl_set_length (inc : Int) :
    ∀ (anns : List Ann) (t0 : List Int),
      (anns.foldl (fun t a => t.set a.id (a.category_id + inc)) t0).length = t0.length := by
  intro anns
  induction anns with
  | nil => intro t0; rfl
  | cons a tl ih => intro t0; rw [List.foldl_cons, ih, List.length_set]

/-- Lookup in the filled `instance2semantic` table: with pairwise-distinct
annotation ids, index `a.id` holds `a.category_id + inc` and every other
index keeps its initial value. -/
theorem foldl_set_get? (inc : Int) :
    ∀ (anns : List Ann) (t0 : List Int) (v : Nat),
      (anns.map (fun a => a.id)).Nodup →
      (∀ a ∈ anns, a.id < t0.length) →
      (anns.foldl (fun t a => t.set a.id (a.category_id + inc)) t0).get? v =
        match anns.find? (fun a => a.id == v) with
        | some a => some (a.category_id + inc)
        | none => t0.get? v := by
  intro anns
  induction anns with
  | nil => intro t0 v _ _; rfl
  | cons a tl ih =>
      intro t0 v hnd hlt
      simp only [List.map_cons, List.nodup_cons] at hnd
      obtain ⟨hna, hnd'⟩ := hnd
      rw [List.foldl_cons]
      rw [ih (t0.set a.id (a.category_id + inc)) v hnd'
        (fun b hb => by
          rw [List.length_set]
          exact hlt b (List.mem_cons_of_mem a hb))]
      by_cases hv : a.id = v
      · subst hv
        have hfind : tl.find? (fun b => b.id == a.id) = none := by
          rw [List.find?_eq_none]
          intro b hb hbeq
          exact hna (by
            rw [← show b.id = a.id from by simpa using hbeq]
            exact List.mem_map_of_mem _ hb)
        rw [hfind, List.find?_cons_of_pos _ (by simp)]
        exact List.get?_set_eq_of_lt _ (hlt a (List.mem_cons_self a tl))
      · rw [List.find?_cons_of_neg _ (by simp [hv])]
        cases hf : tl.find? (fun b => b.id == v) with
        | some b => rfl
        | none => exact List.get?_set_ne _ _ hv

/-- C3 (amended): `get_semantic_bitmap` maps every raster value `v` that is
bounded by the maximum annotation id to the last matching annotation's
`category_id + id_increment` (0 when no annotation matches, in particular
for raster value 0 when no annotation carries id 0, since annotation ids
are pairwise distinct in a well-formed sample); raster values above the
maximum annotation id raise an `IndexError` instead (see the
counterexample). -/
theorem C3_semantic_bitmap_amended (bm : List (List Nat)) (anns : List Ann) (inc : Int)
    (hnd : (anns.map (fun a => a.id)).Nodup)
    (hbound : ∀ row ∈ bm, ∀ v ∈ row, v ≤ maxAnnId anns) :
    get_semantic_bitmap (some bm) (some anns) inc =
      .ok (some (bm.map (fun row => row.map (semanticSpecValue anns inc)))) ∧
    ((∀ a ∈ anns, a.id ≠ 0) → semanticSpecValue anns inc 0 = 0) := by
  constructor
  · have hrow : ∀ row ∈ bm,
        row.mapM (tableIndex (instance2semantic anns inc)) =
          .ok (row.map (semanticSpecValue anns inc)) := by
      intro row hr
      refine mapM_ok_of_forall _ _ row (fun v hv => ?_)
      have hvb : v ≤ maxAnnId anns := hbound row hr v hv
      have hget : (instance2semantic anns inc).get? v =
          match anns.find? (fun a => a.id == v) with
          | some a => some (a.category_id + inc)
          | none => some 0 := by
        rw [instance2semantic, foldl_set_get? inc anns _ v hnd
          (fun a ha => by
            rw [List.length_replicate]
            exact Nat.lt_succ_of_le (le_maxAnnId anns a ha))]
        cases hf : anns.find? (fun a => a.id == v) with
        | some a => rfl
        | none =>
            rw [List.get?_eq_getElem?, List.getElem?_replicate,
              if_pos (Nat.lt_succ_of_le hvb)]
      rw [tableIndex, hget, semanticSpecValue]
      cases anns.find? (fun a => a.id == v) with
      | some a => rfl
      | none => rfl
    show Except.bind (bm.mapM (fun row => row.mapM (tableIndex (instance2semantic anns inc))))
      (fun rows => Except.ok (some rows)) = _
    rw [mapM_ok_of_forall _ _ bm hrow]
    rfl
  · intro hzero
    rw [semanticSpecValue]
    rw [show anns.find? (fun a => a.id == (0 : Nat)) = none from by
      rw [List.find?_eq_none]
      intro a ha hbeq
      exact hzero a ha (by simpa using hbeq)]

/-- C3 counterexample: as universally stated the claim fails twice on the
code.  Raster `[[3]]` with the single annotation `{id := 1}` makes the
non-matching value 3 raise an `IndexError` (the table has size 2) instead
of mapping to 0; and raster `[[0]]` with an annotation `{id := 0,
category_id := 5}` maps raster value 0 to 6, not to 0, because the
annotation overwrites `table[0]`. -/
theorem C3_semantic_bitmap_counterexample :
    get_semantic_bitmap (some [[3]]) (some [Ann.mk 1 4 "" []]) 1 =
      .error "IndexError: index out of bounds" ∧
    get_semantic_bitmap (some [[0]]) (some [Ann.mk 0 5 "" []]) 1 = .ok (some [[6]]) := by
  constructor
  · rfl
  · rfl

/-- Witness for C3 at the spec's concrete example: raster `[[0,1],[2,1]]`
with annotations `{id:1, category_id:5}`, `{id:2, category_id:7}` and
`id_increment = 1` yields `[[0,6],[8,6]]`. -/
theorem C3_semantic_bitmap_witness :
    get_semantic_bitmap (some [[0, 1], [2, 1]])
      (some [Ann.mk 1 5 "" [], Ann.mk 2 7 "" []]) 1 = .ok (some [[0, 6], [8, 6]]) := by
  rw [(C3_semantic_bitmap_amended [[0, 1], [2, 1]] [Ann.mk 1 5 "" [], Ann.mk 2 7 "" []] 1
    (by decide) (by decide)).1]
  rfl

/-- `roundHalfEven` of a nonnegative rational is nonnegative. -/
theorem roundHalfEven_nonneg (q : ℚ) (h : 0 ≤ q) : 0 ≤ roundHalfEven q := by
  have hf : (0 : Int) ≤ ⌊q⌋ := Int.floor_nonneg.mpr h
  rw [roundHalfEven]
  split
  · exact hf
  · split
    · omega
    · split
      · exact hf
      · omega

/-- For a nonnegative value, `fmtFixed6` is an integer part, a dot and
exactly 6 fractional digit characters. -/
theorem fmtFixed6_split (q : ℚ) (h0 : 0 ≤ q) :
    ∃ ip m, m < 1000000 ∧ fmtFixed6 q = ip ++ "." ++ frac6 m ∧ (frac6 m).length = 6 := by
  have hn : 0 ≤ roundHalfEven (q * 1000000) :=
    roundHalfEven_nonneg _ (by positivity)
  refine ⟨toString ((roundHalfEven (q * 1000000)).natAbs / 1000000),
    (roundHalfEven (q * 1000000)).natAbs % 1000000,
    Nat.mod_lt _ (by norm_num), ?_, rfl⟩
  simp only [fmtFixed6]
  rw [if_neg (not_lt.mpr hn)]
  rfl

/-- `roundHalfEven` at an integer value is that integer. -/
theorem roundHalfEven_intCast (n : Int) : roundHalfEven ((n : ℚ)) = n := by
  norm_num [roundHalfEven, Int.floor_intCast]

/-- Evaluation rule for `fmtFixed6` when the scaled value is an exact
integer. -/
theorem fmtFixed6_eq_of_mul (q : ℚ) (n : Int) (h : q * 1000000 = (n : ℚ)) :
    fmtFixed6 q = (if n < 0 then "-" else "") ++ toString (n.natAbs / 1000000) ++ "." ++
      frac6 (n.natAbs % 1000000) := by
  rw [fmtFixed6, h, roundHalfEven_intCast]

/-- C6: for every bbox annotation with corner points `(x0,y0)`, `(x1,y1)`
lying on an image of width `w` and height `h`, the line `export_yolo`
writes is `category_id` followed by `x_center = (x0/w + x1/w)/2`,
`y_center = (y0/h + y1/h)/2`, `width = |x1-x0|/w`, `height = |y1-y0|/h`,
each value lying in `[0,1]` and printed with exactly 6 decimal digits
(Python floats modelled as exact rationals). -/
theorem C6_yolo_line (cid : Int) (x0 y0 x1 y1 w h : ℚ)
    (hw : 0 < w) (hh : 0 < h)
    (hx0 : 0 ≤ x0) (hx0w : x0 ≤ w) (hx1 : 0 ≤ x1) (hx1w : x1 ≤ w)
    (hy0 : 0 ≤ y0) (hy0h : y0 ≤ h) (hy1 : 0 ≤ y1) (hy1h : y1 ≤ h) :
    yoloLine cid (x0, y0) (x1, y1) w h =
      toString cid ++ " " ++ fmtFixed6 (specNormCenter x0 x1 w) ++ " " ++
        fmtFixed6 (specNormCenter y0 y1 h) ++ " " ++ fmtFixed6 (specNormExtent x0 x1 w) ++
        " " ++ fmtFixed6 (specNormExtent y0 y1 h) ++ "\n" ∧
    (0 ≤ specNormCenter x0 x1 w ∧ specNormCenter x0 x1 w ≤ 1) ∧
    (0 ≤ specNormCenter y0 y1 h ∧ specNormCenter y0 y1 h ≤ 1) ∧
    (0 ≤ specNormExtent x0 x1 w ∧ specNormExtent x0 x1 w ≤ 1) ∧
    (0 ≤ specNormExtent y0 y1 h ∧ specNormExtent y0 y1 h ≤ 1) ∧
    (∀ q, q = specNormCenter x0 x1 w ∨ q = specNormCenter y0 y1 h ∨
          q = specNormExtent x0 x1 w ∨ q = specNormExtent y0 y1 h →
      ∃ ip m, m < 1000000 ∧ fmtFixed6 q = ip ++ "." ++ frac6 m ∧ (frac6 m).length = 6) := by
  have hextx : |x1 / w - x0 / w| = specNormExtent x0 x1 w := by
    rw [specNormExtent, div_sub_div_same, abs_div, abs_of_pos hw]
  have hexty : |y1 / h - y0 / h| = specNormExtent y0 y1 h := by
    rw [specNormExtent, div_sub_div_same, abs_div, abs_of_pos hh]
  have hcx : 0 ≤ specNormCenter x0 x1 w ∧ specNormCenter x0 x1 w ≤ 1 := by
    have h1 : 0 ≤ x0 / w := div_nonneg hx0 hw.le
    have h2 : x0 / w ≤ 1 := (div_le_one hw).mpr hx0w
    have h3 : 0 ≤ x1 / w := div_nonneg hx1 hw.le
    have h4 : x1 / w ≤ 1 := (div_le_one hw).mpr hx1w
    constructor <;> (rw [specNormCenter]; linarith)
  have hcy : 0 ≤ specNormCenter y0 y1 h ∧ specNormCenter y0 y1 h ≤ 1 := by
    have h1 : 0 ≤ y0 / h := div_nonneg hy0 hh.le
    have h2 : y0 / h ≤ 1 := (div_le_one hh).mpr hy0h
    have h3 : 0 ≤ y1 / h := div_nonneg hy1 hh.le
    have h4 : y1 / h ≤ 1 := (div_le_one hh).mpr hy1h
    constructor <;> (rw [specNormCenter]; linarith)
  have hex : 0 ≤ specNormExtent x0 x1 w ∧ specNormExtent x0 x1 w ≤ 1 := by
    refine ⟨div_nonneg (abs_nonneg _) hw.le, (div_le_one hw).mpr ?_⟩
    exact abs_le.mpr ⟨by linarith, by linarith⟩
  have hey : 0 ≤ specNormExtent y0 y1 h ∧ specNormExtent y0 y1 h ≤ 1 := by
    refine ⟨div_nonneg (abs_nonneg _) hh.le, (div_le_one hh).mpr ?_⟩
    exact abs_le.mpr ⟨by linarith, by linarith⟩
  refine ⟨?_, hcx, hcy, hex, hey, ?_⟩
  · show toString cid ++ " " ++ fmtFixed6 ((x0 / w + x1 / w) / 2) ++ " " ++
      fmtFixed6 ((y0 / h + y1 / h) / 2) ++ " " ++ fmtFixed6 |x1 / w - x0 / w| ++ " " ++
      fmtFixed6 |y1 / h - y0 / h| ++ "\n" = _
    rw [hextx, hexty]
    rfl
  · intro q hq
    rcases hq with rfl | rfl | rfl | rfl
    · exact fmtFixed6_split _ hcx.1
    · exact fmtFixed6_split _ hcy.1
    · exact fmtFixed6_split _ hex.1
    · exact fmtFixed6_split _ hey.1

/-- Witness for C6 at the spec's concrete example: corners
`(10,20)-(50,80)` on a 100×200 image give the exact line
`"3 0.300000 0.250000 0.400000 0.300000"`, and its values lie in [0,1]. -/
theorem C6_yolo_line_witness :
    yoloLine 3 (10, 20) (50, 80) 100 200 = "3 0.300000 0.250000 0.400000 0.300000\n" ∧
    (0 ≤ specNormCenter 10 50 100 ∧ specNormCenter 10 50 100 ≤ 1) :=
  ⟨by
    have hxc : fmtFixed6 (((10 : ℚ) / 100 + 50 / 100) / 2) = "0.300000" := by
      rw [fmtFixed6_eq_of_mul _ 300000 (by norm_num)]
      rfl
    have hyc : fmtFixed6 (((20 : ℚ) / 200 + 80 / 200) / 2) = "0.250000" := by
      rw [fmtFixed6_eq_of_mul _ 250000 (by norm_num)]
      rfl
    have hwd : fmtFixed6 |(50 : ℚ) / 100 - 10 / 100| = "0.400000" := by
      rw [fmtFixed6_eq_of_mul _ 400000 (by rw [show |(50 : ℚ) / 100 - 10 / 100| = 2 / 5 from
        by rw [abs_of_nonneg] <;> norm_num]; norm_num)]
      rfl
    have hht : fmtFixed6 |(80 : ℚ) / 200 - 20 / 200| = "0.300000" := by
      rw [fmtFixed6_eq_of_mul _ 300000 (by rw [show |(80 : ℚ) / 200 - 20 / 200| = 3 / 10 from
        by rw [abs_of_nonneg] <;> norm_num]; norm_num)]
      rfl
    show toString (3 : Int) ++ " " ++ fmtFixed6 (((10 : ℚ) / 100 + 50 / 100) / 2) ++ " " ++
      fmtFixed6 (((20 : ℚ) / 200 + 80 / 200) / 2) ++ " " ++
      fmtFixed6 |(50 : ℚ) / 100 - 10 / 100| ++ " " ++
      fmtFixed6 |(80 : ℚ) / 200 - 20 / 200| ++ "\n" = _
    rw [hxc, hyc, hwd, hht]
    rfl,
   (C6_yolo_line 3 10 20 50 80 100 200 (by norm_num) (by norm_num) (by norm_num)
     (by norm_num) (by norm_num) (by norm_num) (by norm_num) (by norm_num) (by norm_num)
     (by norm_num)).2.1⟩

/-- Bind of a successful `Except` computation. -/
theorem exceptBind_ok {α β : Type} (a : α) (f : α → Except String β) :
    (Except.ok a : Except String α) >>= f = f a := rfl

/-- Bind of a failed `Except` computation. -/
theorem exceptBind_error {α β : Type} (e : String) (f : α → Except String β) :
    (Except.error e : Except String α) >>= f = .error e := rfl

/-- Every coco-instance annotation entry produced for one sample carries
that sample's `image_id`. -/
theorem cocoInstanceAnns_image_id (task_type : String) (bm : List (List Nat)) (image_id : Nat) :
    ∀ (anns : List Ann) (aid : Nat) (entries : List CocoAnn) (aid' : Nat),
      cocoInstanceAnns task_type bm image_id anns aid = .ok (entries, aid') →
      ∀ e ∈ entries, e.image_id = image_id := by
  intro anns
  induction anns with
  | nil =>
      intro aid entries aid' h e he
      simp only [cocoInstanceAnns, Except.ok.injEq, Prod.mk.injEq] at h
      obtain ⟨h1, _⟩ := h
      subst h1
      exact absurd he (by simp)
  | cons inst rest ih =>
      intro aid entries aid' h e he
      rw [cocoInstanceAnns] at h
      split at h
      · cases hreg : regionOf bm inst.id with
        | none =>
            rw [hreg] at h
            exact ih aid entries aid' h e he
        | some region =>
            rw [hreg] at h
            dsimp only at h
            cases hrec : cocoInstanceAnns task_type bm image_id rest (aid + 1) with
            | error msg => rw [hrec, exceptBind_error] at h; exact Except.noConfusion h
            | ok p =>
                obtain ⟨entries2, aid2⟩ := p
                rw [hrec, exceptBind_ok] at h
                dsimp only at h
                simp only [pure, Except.pure, Except.ok.injEq, Prod.mk.injEq] at h
                obtain ⟨h1, _⟩ := h
                subst h1
                rcases List.mem_cons.mp he with rfl | he2
                · rfl
                · exact ih (aid + 1) entries2 aid2 hrec e he2
      · split at h
        · split at h
          · dsimp only at h
            cases hrec : cocoInstanceAnns task_type bm image_id rest (aid + 1) with
            | error msg => rw [hrec, exceptBind_error] at h; exact Except.noConfusion h
            | ok p =>
                obtain ⟨entries2, aid2⟩ := p
                rw [hrec, exceptBind_ok] at h
                dsimp only at h
                simp only [pure, Except.pure, Except.ok.injEq, Prod.mk.injEq] at h
                obtain ⟨h1, _⟩ := h
                subst h1
                rcases List.mem_cons.mp he with rfl | he2
                · rfl
                · exact ih (aid + 1) entries2 aid2 hrec e he2
          · exact Except.noConfusion h
        · exact Except.noConfusion h

/-- All image ids and annotation image ids produced by the coco-instance
sample loop started at index `i` exceed `i`. -/
theorem cocoInstanceLoop_ids_lt (task_type : String) :
    ∀ (samples : List Sample) (i aid : Nat) (images : List ImageEntry) (anns : List CocoAnn),
      cocoInstanceLoop task_type samples i aid = .ok (images, anns) →
      (∀ e ∈ images, i < e.id) ∧ (∀ a ∈ anns, i < a.image_id) := by
  intro samples
  induction samples with
  | nil =>
      intro i aid images anns h
      simp only [cocoInstanceLoop, Except.ok.injEq, Prod.mk.injEq] at h
      obtain ⟨h1, h2⟩ := h
      subst h1; subst h2
      exact ⟨by simp, by simp⟩
  | cons s rest ih =>
      intro i aid images anns h
      rw [cocoInstanceLoop] at h
      cases hs : s.annotations with
      | none =>
          rw [hs] at h
          obtain ⟨h1, h2⟩ := ih (i + 1) aid images anns h
          exact ⟨fun e he => Nat.lt_of_succ_lt (h1 e he),
                 fun a ha => Nat.lt_of_succ_lt (h2 a ha)⟩
      | some anns0 =>
          rw [hs] at h
          dsimp only at h
          cases hrec1 : cocoInstanceAnns task_type s.segmentation_bitmap (i + 1) anns0 aid with
          | error msg => rw [hrec1, exceptBind_error] at h; exact Except.noConfusion h
          | ok p =>
              obtain ⟨entries, aid2⟩ := p
              rw [hrec1, exceptBind_ok] at h
              dsimp only at h
              cases hrec2 : cocoInstanceLoop task_type rest (i + 1) aid2 with
              | error msg => rw [hrec2, exceptBind_error] at h; exact Except.noConfusion h
              | ok p2 =>
                  obtain ⟨images2, anns2⟩ := p2
                  rw [hrec2, exceptBind_ok] at h
                  dsimp only at h
                  simp only [pure, Except.pure, Except.ok.injEq, Prod.mk.injEq] at h
                  obtain ⟨h1, h2⟩ := h
                  subst h1; subst h2
                  obtain ⟨ih1, ih2⟩ := ih (i + 1) aid2 images2 anns2 hrec2
                  constructor
                  · intro e he
                    rcases List.mem_cons.mp he with rfl | he2
                    · exact Nat.lt_succ_self i
                    · exact Nat.lt_of_succ_lt (ih1 e he2)
                  · intro a ha
                    rcases List.mem_append.mp ha with ha1 | ha2
                    · rw [cocoInstanceAnns_image_id task_type s.segmentation_bitmap (i + 1)
                        anns0 aid entries aid2 hrec1 a ha1]
                      exact Nat.lt_succ_self i
                    · exact Nat.lt_of_succ_lt (ih2 a ha2)

/-- All image ids and panoptic annotation image ids produced by the
coco-panoptic sample loop started at index `i` exceed `i`. -/
theorem panopticLoop_ids_lt (categories : List (Int × Category)) (labelset : String) :
    ∀ (samples : List Sample) (i : Nat) (taken : Finset RGB) (rand : List (Int × Int × Int))
      (images : List ImageEntry) (panns : List PanAnn)
      (files : List (String × List (List RGB))) (takenF : Finset RGB)
      (randF : List (Int × Int × Int)),
      panopticLoop categories labelset samples i taken rand =
        .ok (images, panns, files, takenF, randF) →
      (∀ e ∈ images, i < e.id) ∧ (∀ a ∈ panns, i < a.image_id) := by
  intro samples
  induction samples with
  | nil =>
      intro i taken rand images panns files takenF randF h
      simp only [panopticLoop, Except.ok.injEq, Prod.mk.injEq] at h
      obtain ⟨h1, h2, _⟩ := h
      subst h1; subst h2
      exact ⟨by simp, by simp⟩
  | cons s rest ih =>
      intro i taken rand images panns files takenF randF h
      rw [panopticLoop] at h
      cases hs : s.annotations with
      | none =>
          rw [hs] at h
          obtain ⟨h1, h2⟩ := ih (i + 1) taken rand images panns files takenF randF h
          exact ⟨fun e he => Nat.lt_of_succ_lt (h1 e he),
                 fun a ha => Nat.lt_of_succ_lt (h2 a ha)⟩
      | some anns0 =>
          rw [hs] at h
          dsimp only at h
          cases hrec1 : panopticAnns categories s.segmentation_bitmap anns0
              (s.segmentation_bitmap.map (fun row => row.map (fun _ => ((0, 0, 0) : RGB))))
              taken rand with
          | error msg => rw [hrec1, exceptBind_error] at h; exact Except.noConfusion h
          | ok p =>
              obtain ⟨segs, label, taken', rand'⟩ := p
              rw [hrec1, exceptBind_ok] at h
              dsimp only at h
              cases hrec2 : panopticLoop categories labelset rest (i + 1) taken' rand' with
              | error msg => rw [hrec2, exceptBind_error] at h; exact Except.noConfusion h
              | ok p2 =>
                  obtain ⟨images2, panns2, files2, takenF2, randF2⟩ := p2
                  rw [hrec2, exceptBind_ok] at h
                  dsimp only at h
                  simp only [pure, Except.pure, Except.ok.injEq, Prod.mk.injEq] at h
                  obtain ⟨h1, h2, _⟩ := h
                  subst h1; subst h2
                  obtain ⟨ih1, ih2⟩ := ih (i + 1) taken' rand' images2 panns2 files2 takenF2
                    randF2 hrec2
                  constructor
                  · intro e he
                    rcases List.mem_cons.mp he with rfl | he2
                    · exact Nat.lt_succ_self i
                    · exact Nat.lt_of_succ_lt (ih1 e he2)
                  · intro a ha
                    rcases List.mem_cons.mp ha with rfl | ha2
                    · exact Nat.lt_succ_self i
                    · exact Nat.lt_of_succ_lt (ih2 a ha2)

/-- C7: a sample whose `annotations` field is `None` is skipped by every
emitter (coco-instance, coco-panoptic, image, yolo) without raising: the
loop result equals the result on the remaining samples alone (with the
sample index advanced past the skipped sample), so the skipped sample
contributes no image entry, no annotation entry and no written file; and
nothing produced by the remaining samples carries the skipped sample's
image id `i + 1`. -/
theorem C7_skip_null_annotations (s : Sample) (hs : s.annotations = none)
    (rest : List Sample) (task_type labelset export_format : String)
    (categories : List (Int × Category)) (cats : List Category)
    (i annotation_id : Nat) (id_increment : Int)
    (taken : Finset RGB) (rand : List (Int × Int × Int)) :
    cocoInstanceLoop task_type (s :: rest) i annotation_id =
      cocoInstanceLoop task_type rest (i + 1) annotation_id ∧
    panopticLoop categories labelset (s :: rest) i taken rand =
      panopticLoop categories labelset rest (i + 1) taken rand ∧
    exportImageLoop labelset export_format id_increment cats (s :: rest) =
      exportImageLoop labelset export_format id_increment cats rest ∧
    yoloLoop (s :: rest) = yoloLoop rest ∧
    (∀ images anns, cocoInstanceLoop task_type rest (i + 1) annotation_id = .ok (images, anns) →
      (∀ e ∈ images, e.id ≠ i + 1) ∧ (∀ a ∈ anns, a.image_id ≠ i + 1)) ∧
    (∀ images panns files takenF randF,
      panopticLoop categories labelset rest (i + 1) taken rand =
        .ok (images, panns, files, takenF, randF) →
      (∀ e ∈ images, e.id ≠ i + 1) ∧ (∀ a ∈ panns, a.image_id ≠ i + 1)) := by
  refine ⟨?_, ?_, ?_, ?_, ?_, ?_⟩
  · rw [cocoInstanceLoop, hs]
  · rw [panopticLoop, hs]
  · rw [exportImageLoop, hs]
  · rw [yoloLoop, hs]
  · intro images anns h
    obtain ⟨h1, h2⟩ := cocoInstanceLoop_ids_lt task_type rest (i + 1) annotation_id images anns h
    exact ⟨fun e he => Nat.ne_of_gt (h1 e he), fun a ha => Nat.ne_of_gt (h2 a ha)⟩
  · intro images panns files takenF randF h
    obtain ⟨h1, h2⟩ :=
      panopticLoop_ids_lt categories labelset rest (i + 1) taken rand images panns files
        takenF randF h
    exact ⟨fun e he => Nat.ne_of_gt (h1 e he), fun a ha => Nat.ne_of_gt (h2 a ha)⟩

/-- Witness for C7: the skip equation of the coco-instance loop at a
concrete dataset with a null-annotation sample in front. -/
theorem C7_skip_null_annotations_witness :
    cocoInstanceLoop "segmentation-bitmap"
      (Sample.mk "a.jpg" "a.jpg" none [[0]] none ::
        [Sample.mk "b.jpg" "b.jpg" (some (1, 1)) [[1]] (some [Ann.mk 1 2 "" []])]) 0 1 =
      cocoInstanceLoop "segmentation-bitmap"
        [Sample.mk "b.jpg" "b.jpg" (some (1, 1)) [[1]] (some [Ann.mk 1 2 "" []])] 1 1 :=
  (C7_skip_null_annotations (Sample.mk "a.jpg" "a.jpg" none [[0]] none) rfl
    [Sample.mk "b.jpg" "b.jpg" (some (1, 1)) [[1]] (some [Ann.mk 1 2 "" []])]
    "segmentation-bitmap" "ground-truth" "instance" [] [] 0 1 1 ∅ []).1

/-- C8: for every dataset whose task type is incompatible with the
requested export format (the COCO and flat-image formats require a
segmentation-bitmap task type; yolo requires vector or bboxes),
`export_dataset` raises a `ValueError` — the configuration check precedes
the sample loop, so no output entry or file is produced. -/
theorem C8_config_check (ds : SegmentsDataset) (export_format : String) (inc : Int)
    (rand : List (Int × Int × Int))
    (hfmt : export_format = "coco-panoptic" ∨ export_format = "coco-instance" ∨
      export_format = "instance" ∨ export_format = "instance-color" ∨
      export_format = "semantic" ∨ export_format = "semantic-color" ∨
      export_format = "yolo")
    (hyolo : export_format = "yolo" → ¬(ds.task_type = "vector" ∨ ds.task_type = "bboxes"))
    (hseg : export_format ≠ "yolo" → ¬(isSegTaskType ds.task_type = true)) :
    ∃ msg, export_dataset ds export_format inc rand = .error msg := by
  rcases hfmt with rfl | rfl | rfl | rfl | rfl | rfl | rfl
  · exact ⟨_, by
      rw [export_dataset, if_pos rfl, if_neg]
      exact hseg (by decide)⟩
  · exact ⟨_, by
      rw [export_dataset, if_neg (by decide), if_pos rfl, if_neg]
      exact hseg (by decide)⟩
  · exact ⟨_, by
      rw [export_dataset, if_neg (by decide), if_neg (by decide), if_neg (by decide),
        if_pos (by decide), if_neg]
      exact hseg (by decide)⟩
  · exact ⟨_, by
      rw [export_dataset, if_neg (by decide), if_neg (by decide), if_neg (by decide),
        if_pos (by decide), if_neg]
      exact hseg (by decide)⟩
  · exact ⟨_, by
      rw [export_dataset, if_neg (by decide), if_neg (by decide), if_neg (by decide),
        if_pos (by decide), if_neg]
      exact hseg (by decide)⟩
  · exact ⟨_, by
      rw [export_dataset, if_neg (by decide), if_neg (by decide), if_neg (by decide),
        if_pos (by decide), if_neg]
      exact hseg (by decide)⟩
  · exact ⟨_, by
      rw [export_dataset, if_neg (by decide), if_neg (by decide), if_pos rfl, if_neg]
      exact hyolo rfl⟩

/-- Witness for C8: exporting a `vector` dataset to coco-panoptic fails
with a `ValueError`. -/
theorem C8_config_check_witness :
    ∃ msg, export_dataset (SegmentsDataset.mk [] "vector" [] "ground-truth")
      "coco-panoptic" 1 [] = .error msg :=
  C8_config_check (SegmentsDataset.mk [] "vector" [] "ground-truth") "coco-panoptic" 1 []
    (Or.inl rfl) (fun h => absurd h (by decide)) (fun _ => by decide)
